import Mathlib

/-!
Verification development for the News-Stock-Analyzer repository.

The definitions below are a shallow embedding of the Python sources:
  - `text_cleaner.py` (class TextCleaner): strings are modelled as `List Char`,
    each regex substitution as a structurally recursive scanner with the same
    left-to-right, leftmost-match, greedy semantics as `re.sub`;
  - `agent.py` (class StockAdvisorAgent): sentiment counting, the log-odds
    score, the act/decision step and the execute pipeline, with floats
    modelled as real numbers (probabilities as rationals where the code only
    compares them), and the two external effects (the scraped corpus and the
    classifier output) passed in as explicit arguments;
  - `scrapers.py` (UnifiedScraper.scrape_all): list concatenation.

Theorems named `C1_...` .. `C10_...` settle the frozen claims about the spec.
-/

set_option maxRecDepth 10000

/-! ## Character classes

Python `re` with `str` patterns is Unicode-aware: `\s` and `str.split()` use
the Unicode whitespace set, `\w` the word characters.  The cleaner only ever
keeps ASCII text (the character filter runs before whitespace collapsing and
lowercasing), so the whitespace set is embedded as the concrete list Python
uses for `str.split`, and `\w` as its ASCII part; every theorem below only
depends on the behaviour of these classes on the characters it names. -/

/-- Whitespace characters of Python `str.split()` / `re \s` (Unicode set). -/
def pySpaceChars : List Char :=
  [' ', '\t', '\n', '\r', '\x0b', '\x0c',
   '\x1c', '\x1d', '\x1e', '\x1f', '\x85', '\xa0',
   ' ', ' ', ' ', ' ', ' ', ' ', ' ',
   ' ', ' ', ' ', ' ', ' ', ' ', ' ',
   ' ', ' ', '　']

def isPySpace (c : Char) : Bool := pySpaceChars.contains c

def asciiLetters : List Char :=
  "ABCDEFGHIJKLMNOPQRSTUVWXYZabcdefghijklmnopqrstuvwxyz".toList

def asciiDigits : List Char := "0123456789".toList

/-- `\w` of the mention/hashtag regexes (ASCII part). -/
def isWordChar (c : Char) : Bool :=
  asciiLetters.contains c || asciiDigits.contains c || c == '_'

/-- The class kept by `remove_special_chars`: `[a-zA-Z0-9\s.!?]`
(`re.sub(r'[^a-zA-Z0-9\s\.\!\?]', '', text)`). -/
def keepChar (c : Char) : Bool :=
  asciiLetters.contains c || asciiDigits.contains c || isPySpace c ||
    c == '.' || c == '!' || c == '?'

/-- Emoji glyphs removed by `emoji.replace_emoji` (`remove_emojis`), embedded
as the main emoji codepoint blocks.  All of them are far outside ASCII; the
theorems below only use that no ASCII character is an emoji. -/
def isEmojiChar (c : Char) : Bool :=
  (0x1F000 ≤ c.toNat && c.toNat ≤ 0x1FAFF) ||
  (0x2600 ≤ c.toNat && c.toNat ≤ 0x27BF) ||
  (0x2B00 ≤ c.toNat && c.toNat ≤ 0x2BFF) ||
  c.toNat == 0xFE0F || c.toNat == 0x200D ||
  (0xE0020 ≤ c.toNat && c.toNat ≤ 0xE007F)

/-- Python `str.lower()` on the ASCII range (the only characters that reach
the final lowercasing step have already been filtered to ASCII). -/
def toLowerPy (c : Char) : Char :=
  if 'A' ≤ c ∧ c ≤ 'Z' then Char.ofNat (c.toNat + 32) else c

/-! ## TextCleaner: the seven cleaning steps (`text_cleaner.py`) -/

/-- Does a match of `http\S+|www\S+|https\S+` start at the head of `s`?
`http\S+` needs a fifth non-space character after the literal `http`, and
`www\S+` a fourth after `www` (this also covers the redundant `https\S+`
alternative).  The pattern is case sensitive, as in the source. -/
def urlStart : List Char → Bool
  | 'h' :: 't' :: 't' :: 'p' :: d :: _ => !isPySpace d
  | 'w' :: 'w' :: 'w' :: d :: _ => !isPySpace d
  | _ => false

/-- Scanner for `re.sub(r'http\S+|www\S+|https\S+', '', text)`: when a match
starts, the greedy `\S+` consumes the whole maximal non-space run, which the
`skip` state drops character by character. -/
def urlGo : List Char → Bool → List Char
  | [], _ => []
  | c :: rest, skip =>
    if skip && !isPySpace c then urlGo rest true
    else if urlStart (c :: rest) then urlGo rest true
    else c :: urlGo rest false

/-- `TextCleaner.remove_urls`. -/
def remove_urls (s : List Char) : List Char := urlGo s false

def headIsWord : List Char → Bool
  | [] => false
  | d :: _ => isWordChar d

/-- Scanner for `re.sub(tag ++ r'\w+', '', text)` with `tag` = `@` or `#`:
the `skip` state drops the greedy `\w+` run; when it ends, the next character
may itself start a new match. -/
def tagGo (tag : Char) : List Char → Bool → List Char
  | [], _ => []
  | c :: rest, skip =>
    if skip && isWordChar c then tagGo tag rest true
    else if c == tag && headIsWord rest then tagGo tag rest true
    else c :: tagGo tag rest false

/-- `TextCleaner.remove_mentions` (`re.sub(r'@\w+', '', text)`). -/
def remove_mentions (s : List Char) : List Char := tagGo '@' s false

/-- `TextCleaner.remove_hashtags` (`re.sub(r'#\w+', '', text)`). -/
def remove_hashtags (s : List Char) : List Char := tagGo '#' s false

/-- `TextCleaner.remove_emojis` (`emoji.replace_emoji(text, replace="")`). -/
def remove_emojis (s : List Char) : List Char := s.filter (fun c => !isEmojiChar c)

/-- `TextCleaner.remove_special_chars`. -/
def remove_special_chars (s : List Char) : List Char := s.filter keepChar

/-- Python `text.split()`: maximal runs of non-whitespace characters, empty
pieces dropped. -/
def pyWords : List Char → List (List Char)
  | [] => []
  | c :: rest =>
    if isPySpace c then pyWords rest
    else
      match rest with
      | [] => [[c]]
      | d :: _ =>
        if isPySpace d then [c] :: pyWords rest
        else
          match pyWords rest with
          | [] => [[c]]
          | w :: ws => (c :: w) :: ws

/-- Python `' '.join(words)`. -/
def joinWords : List (List Char) → List Char
  | [] => []
  | [w] => w
  | w :: ws => w ++ ' ' :: joinWords ws

/-- `TextCleaner.normalize_whitespace` (`' '.join(text.split())`). -/
def normalize_whitespace (s : List Char) : List Char := joinWords (pyWords s)

/-- `TextCleaner.lowercase` (`text.lower()`). -/
def lowercase (s : List Char) : List Char := s.map toLowerPy

/-- `TextCleaner.clean_single_text`: the seven steps in the fixed source
order. -/
def clean_single_text (s : List Char) : List Char :=
  lowercase (normalize_whitespace (remove_special_chars (remove_emojis
    (remove_hashtags (remove_mentions (remove_urls s))))))

/-! ## Sentiment aggregation (`agent.py`, `StockAdvisorAgent.predict`) -/

/-- One row of the classifier output `probs`: softmax probabilities in the
fixed order `[negative, neutral, positive]`.  The code only ever compares
them with `0.5`, so they are modelled as rationals. -/
structure ClassProbs where
  neg : ℚ
  neu : ℚ
  pos : ℚ
  deriving DecidableEq, Repr

/-- `positive_count = np.sum(all_probs[:, 2] > 0.5)`. -/
def positive_count (probs : List ClassProbs) : ℕ :=
  probs.countP (fun p => decide (p.pos > 0.5))

/-- `negative_count = np.sum(all_probs[:, 0] > 0.5)`. -/
def negative_count (probs : List ClassProbs) : ℕ :=
  probs.countP (fun p => decide (p.neg > 0.5))

/-- `sentiment_score = np.log((1 + positive_count) / (1 + negative_count))`. -/
noncomputable def sentiment_score (positiveCount negativeCount : ℕ) : ℝ :=
  Real.log ((1 + (positiveCount : ℝ)) / (1 + (negativeCount : ℝ)))

/-! ## Corpus building (`scrapers.py`, `UnifiedScraper.scrape_all`) -/

/-- One scraped record.  Of the dict fields the pipeline logic reads only
`text` and `source`; the source tags produced by the scrapers are the strings
`"reddit"`, `"twitter"` and `"news"`. -/
structure RawItem where
  text : List Char
  source : String
  deriving DecidableEq, Repr

/-- `UnifiedScraper.scrape_all`: `all_data = []`, then three `extend` calls
in the order reddit, twitter, news. -/
def scrape_all (reddit_data twitter_data news_data : List RawItem) : List RawItem :=
  (([] ++ reddit_data) ++ twitter_data) ++ news_data

/-! ## Cleaning stage (`StockAdvisorAgent.clean`) -/

/-- The cleaned texts handed to the sentiment model:
`clean_scraper_output` attaches `cleaned_text = clean_single_text(text)` to
every item, and the list comprehension keeps the cleaned texts that are
truthy, i.e. non-empty. -/
def agent_cleaned_texts (raw_data : List RawItem) : List (List Char) :=
  (raw_data.map (fun item => clean_single_text item.text)).filter
    (fun t => !t.isEmpty)

/-! ## Decision step (`StockAdvisorAgent.act`) -/

inductive AgentAction where
  | BUY | SELL | HOLD | ERROR
  deriving DecidableEq, Repr

/-- The `references` dict attached to a recommendation. -/
structure References where
  reddit : List RawItem
  twitter : List RawItem
  news : List RawItem
  deriving DecidableEq, Repr

/-- The reference selection of `act`: filter `raw_data` by source tag and
take `[:min(10, len)]` from each bucket.  The news bucket filters for the
tags `"newsapi"` and `"google_news"`, exactly as the source does. -/
def referencesOf (raw_data : List RawItem) : References :=
  let reddit_sources := raw_data.filter (fun item => item.source == "reddit")
  let twitter_sources := raw_data.filter (fun item => item.source == "twitter")
  let news_sources := raw_data.filter
    (fun item => item.source == "newsapi" || item.source == "google_news")
  { reddit := reddit_sources.take (min 10 reddit_sources.length)
    twitter := twitter_sources.take (min 10 twitter_sources.length)
    news := news_sources.take (min 10 news_sources.length) }

/-- The recommendation dict built by `act` (and, for the empty-corpus path,
by `execute`).  The `timestamp` field carries no logic and is omitted. -/
structure Recommendation where
  stock_ticker : String
  action : AgentAction
  confidence : ℝ
  sentiment_score : ℝ
  positive_count : ℕ
  negative_count : ℕ
  investment_percent : ℝ
  investment_amount : ℝ
  budget : ℝ
  reasoning : String
  data_points : ℕ
  references : References

/-- The BUY reasoning f-string of `act`; `fmt` stands for the `%.2f` float
formatting, which carries no decision logic. -/
def buyReasoning (fmt : ℝ → String) (score : ℝ) (pos neg : ℕ) (ticker : String) : String :=
  "Positive sentiment (score: " ++ fmt score ++ ", " ++ toString pos ++
    " positive vs " ++ toString neg ++ " negative mentions). " ++
    "Market discussion leans optimistic about " ++ ticker ++ ". Consider buying."

/-- The SELL reasoning f-string of `act`. -/
def sellReasoning (fmt : ℝ → String) (score : ℝ) (pos neg : ℕ) (ticker : String) : String :=
  "Negative sentiment (score: " ++ fmt score ++ ", " ++ toString pos ++
    " positive vs " ++ toString neg ++ " negative mentions). " ++
    "Market discussion shows concerns about " ++ ticker ++ ". Consider selling or avoiding."

/-- The HOLD reasoning f-string of `act`. -/
def holdReasoning (fmt : ℝ → String) (score : ℝ) (pos neg : ℕ) (ticker : String) : String :=
  "Neutral sentiment (score: " ++ fmt score ++ ", " ++ toString pos ++
    " positive vs " ++ toString neg ++ " negative mentions). " ++
    "Market opinion is mixed about " ++ ticker ++ ". Wait for clearer signals."

/-- `StockAdvisorAgent.act`: tanh allocation, fixed thresholds `0.15` and
`-0.15`, HOLD forcing zero allocation, and the reference selection.  The
duplicated dict construction in the source builds the same record twice; the
net effect is embedded once. -/
noncomputable def act (fmt : ℝ → String) (stock_ticker : String) (sentimentScore : ℝ)
    (positiveCount negativeCount : ℕ) (raw_data : List RawItem) (budget : ℝ)
    (raw_data_count : ℕ) : Recommendation :=
  let tanh_value := Real.tanh sentimentScore
  let investment_amount := budget * tanh_value
  let investment_percent := tanh_value * 100
  if sentimentScore > 0.15 then
    { stock_ticker := stock_ticker, action := .BUY,
      confidence := min |tanh_value| 1.0, sentiment_score := sentimentScore,
      positive_count := positiveCount, negative_count := negativeCount,
      investment_percent := investment_percent, investment_amount := investment_amount,
      budget := budget,
      reasoning := buyReasoning fmt sentimentScore positiveCount negativeCount stock_ticker,
      data_points := raw_data_count, references := referencesOf raw_data }
  else if sentimentScore < -0.15 then
    { stock_ticker := stock_ticker, action := .SELL,
      confidence := min |tanh_value| 1.0, sentiment_score := sentimentScore,
      positive_count := positiveCount, negative_count := negativeCount,
      investment_percent := investment_percent, investment_amount := investment_amount,
      budget := budget,
      reasoning := sellReasoning fmt sentimentScore positiveCount negativeCount stock_ticker,
      data_points := raw_data_count, references := referencesOf raw_data }
  else
    { stock_ticker := stock_ticker, action := .HOLD,
      confidence := 0.5, sentiment_score := sentimentScore,
      positive_count := positiveCount, negative_count := negativeCount,
      investment_percent := 0.0, investment_amount := 0.0,
      budget := budget,
      reasoning := holdReasoning fmt sentimentScore positiveCount negativeCount stock_ticker,
      data_points := raw_data_count, references := referencesOf raw_data }

/-! ## Pipeline (`StockAdvisorAgent.execute`) -/

/-- The recommendation dict of the empty-corpus path of `execute`.  In the
source that dict carries only `stock_ticker`, `action` and `reasoning` (note
it uses the original, non-uppercased ticker argument); the absent fields are
modelled as zero/empty. -/
def errorRecommendation (stock_ticker : String) : Recommendation :=
  { stock_ticker := stock_ticker, action := .ERROR, confidence := 0,
    sentiment_score := 0, positive_count := 0, negative_count := 0,
    investment_percent := 0, investment_amount := 0, budget := 0,
    reasoning := "No data found for this stock", data_points := 0,
    references := { reddit := [], twitter := [], news := [] } }

/-- The outcome of one `execute` run: the updated `self.history`, the
recommendation of the returned state, the cleaned texts handed to the model,
and whether the predict and act stages ran at all. -/
structure ExecResult where
  history : List Recommendation
  recommendation : Recommendation
  cleaned_texts : List (List Char)
  predict_invoked : Bool
  act_invoked : Bool

/-- `StockAdvisorAgent.execute`: observe (ticker uppercased) → scrape
(`scrape_all`, the three adapter outputs passed in) → empty-corpus
short-circuit → clean → predict → act → history append.  The external
classifier call is the argument `scorer_output`: `none` models the
`except` branch of `predict` (score, counts forced to zero), `some probs`
the successful batch. -/
noncomputable def execute (fmt : ℝ → String) (stock_ticker : String)
    (reddit_data twitter_data news_data : List RawItem)
    (scorer_output : Option (List ClassProbs)) (budget : ℝ)
    (history : List Recommendation) : ExecResult :=
  let ticker_up := stock_ticker.toUpper
  let raw_data := scrape_all reddit_data twitter_data news_data
  if raw_data.length = 0 then
    { history := history, recommendation := errorRecommendation stock_ticker,
      cleaned_texts := [], predict_invoked := false, act_invoked := false }
  else
    let cleaned := agent_cleaned_texts raw_data
    let pos := match scorer_output with
      | none => 0
      | some probs => positive_count probs
    let neg := match scorer_output with
      | none => 0
      | some probs => negative_count probs
    let score : ℝ := match scorer_output with
      | none => 0.0
      | some probs => sentiment_score (positive_count probs) (negative_count probs)
    let recm := act fmt ticker_up score pos neg raw_data budget raw_data.length
    { history := history ++ [recm], recommendation := recm,
      cleaned_texts := cleaned, predict_invoked := true, act_invoked := true }

/-- The default of the `budget` keyword argument of `execute`. -/
noncomputable def default_budget : ℝ := 10000.0

/-- `execute` called without a `budget` argument. -/
noncomputable def execute_default (fmt : ℝ → String) (stock_ticker : String)
    (reddit_data twitter_data news_data : List RawItem)
    (scorer_output : Option (List ClassProbs))
    (history : List Recommendation) : ExecResult :=
  execute fmt stock_ticker reddit_data twitter_data news_data scorer_output
    default_budget history

/-- `StockAdvisorAgent.get_history` returns `self.history` itself. -/
def get_history (history : List Recommendation) : List Recommendation := history

/-- Modelled from the claim wording for comparison with `negative_count`:
counting in which a degenerate item with both `pPositive > 0.5` and
`pNegative > 0.5` is resolved mutually exclusively by checking positive
first, so it is never counted negative.  The code (`predict`) instead counts
the two columns independently. -/
def negative_count_positive_first (probs : List ClassProbs) : ℕ :=
  probs.countP (fun p => decide (¬ p.pos > 0.5 ∧ p.neg > 0.5))

/-! ## Claim C8: corpus concatenation -/

/-- C8: the built corpus is exactly forum (reddit) items, then microblog
(twitter) items, then news items, preserving each adapter's internal
ordering; an empty adapter output contributes zero items; in particular
`scrape_all [f1, f2] [m1] [] = [f1, f2, m1]`. -/
theorem C8_corpus_concatenation (r t n : List RawItem) :
    scrape_all r t n = r ++ t ++ n ∧
    (∀ i : ℕ, i < r.length → (scrape_all r t n)[i]? = r[i]?) ∧
    (∀ i : ℕ, i < t.length → (scrape_all r t n)[r.length + i]? = t[i]?) ∧
    (∀ i : ℕ, i < n.length → (scrape_all r t n)[r.length + t.length + i]? = n[i]?) ∧
    scrape_all r [] [] = r ∧ scrape_all [] t [] = t ∧ scrape_all [] [] n = n ∧
    (∀ f1 f2 m1 : RawItem, scrape_all [f1, f2] [m1] [] = [f1, f2, m1]) := by
  refine ⟨by simp [scrape_all], ?_, ?_, ?_, by simp [scrape_all],
    by simp [scrape_all], by simp [scrape_all], by intro f1 f2 m1; simp [scrape_all]⟩
  · intro i hi
    simp only [scrape_all, List.nil_append, List.append_assoc]
    rw [List.getElem?_append_left hi]
  · intro i hi
    simp only [scrape_all, List.nil_append, List.append_assoc]
    rw [List.getElem?_append_right (by omega), Nat.add_sub_cancel_left,
      List.getElem?_append_left hi]
  · intro i hi
    simp only [scrape_all, List.nil_append, List.append_assoc]
    rw [List.getElem?_append_right (by omega), List.getElem?_append_right (by omega)]
    congr 1
    omega

/-! ## Claim C7: reference selection (code bug: news tag mismatch) -/

/-- C7: evaluation at the failing input.  `NewsScraper.scrape_financial_news`
tags every article `source = "news"`, but the reference selection in `act`
filters the news bucket for the tags `"newsapi"` and `"google_news"`; so a
corpus of 15 news items yields an empty `references.news`, not the first 10
items the spec describes.  The reddit and twitter buckets do behave as the
spec says, as the last two conjuncts show on a 15-item reddit corpus. -/
theorem C7_news_references_empty :
    (List.replicate 15 (RawItem.mk "Tech giant shares rally after earnings!".toList "news")).length = 15 ∧
    (referencesOf (List.replicate 15
      (RawItem.mk "Tech giant shares rally after earnings!".toList "news"))).news = [] ∧
    (referencesOf (List.replicate 15
      (RawItem.mk "Tech giant shares rally after earnings!".toList "reddit"))).reddit =
      List.replicate 10 (RawItem.mk "Tech giant shares rally after earnings!".toList "reddit") ∧
    (referencesOf (List.replicate 15
      (RawItem.mk "Tech giant shares rally after earnings!".toList "reddit"))).reddit.length = 10 := by
  refine ⟨by simp, ?_, ?_, ?_⟩ <;> decide

/-! ## Claim C4: which cleaned texts reach the scorer -/

/-- C4 counterexample: an item whose cleaned text is `"abc"` — non-empty but
only 3 < 10 characters long — is passed to the sentiment model, so the
claimed 10-character minimum-length threshold does not exist in the code. -/
theorem C4_counterexample :
    agent_cleaned_texts [RawItem.mk "ABC".toList "reddit"] = ["abc".toList] ∧
    "abc".toList.length < 10 := by
  constructor <;> decide

/-- C4 (amended): the cleaned corpus passed to the sentiment scorer excludes
exactly the items whose cleaned text is empty; every item with a non-empty
cleaned text is scored, with no minimum-length threshold. -/
theorem C4_amended (raw_data : List RawItem) :
    (∀ t ∈ agent_cleaned_texts raw_data, t ≠ []) ∧
    (∀ item ∈ raw_data, clean_single_text item.text ≠ [] →
      clean_single_text item.text ∈ agent_cleaned_texts raw_data) ∧
    agent_cleaned_texts raw_data =
      (raw_data.map (fun item => clean_single_text item.text)).filter
        (fun t => !t.isEmpty) := by
  refine ⟨?_, ?_, rfl⟩
  · intro t ht
    have := (List.mem_filter.1 ht).2
    simpa [List.isEmpty_iff] using this
  · intro item hitem hne
    refine List.mem_filter.2 ⟨List.mem_map_of_mem _ hitem, ?_⟩
    simpa [List.isEmpty_iff] using hne

/-! ## Claim C2: per-item counting and the log-odds score -/

/-- C2 counterexample: on the degenerate probability row
`(pNeg, pNeu, pPos) = (0.6, 0, 0.6)` the code counts the item in BOTH
buckets (`negative_count = 1`), while the claimed mutually-exclusive
positive-first resolution would leave `negative_count = 0`. -/
theorem C2_counterexample :
    positive_count [ClassProbs.mk 0.6 0 0.6] = 1 ∧
    negative_count [ClassProbs.mk 0.6 0 0.6] = 1 ∧
    negative_count_positive_first [ClassProbs.mk 0.6 0 0.6] = 0 := by
  refine ⟨?_, ?_, ?_⟩ <;>
    norm_num [positive_count, negative_count, negative_count_positive_first,
      List.countP_cons, List.countP_nil]

/-- C2 (amended): an item is counted positive exactly when `pPositive > 0.5`
and counted negative exactly when `pNegative > 0.5`, the two counts taken
independently (a degenerate item satisfying both — impossible when the three
probabilities are nonnegative and sum to at most 1 — is counted in both
buckets); the score `ln((1+positiveCount)/(1+negativeCount))` is the log of
a positive argument, is zero iff the counts are equal, and is positive iff
`positiveCount > negativeCount`. -/
theorem C2_amended (probs : List ClassProbs) (p n : ℕ) :
    positive_count probs = (probs.filter (fun pr => decide (pr.pos > 0.5))).length ∧
    negative_count probs = (probs.filter (fun pr => decide (pr.neg > 0.5))).length ∧
    (∀ pr : ClassProbs, 0 ≤ pr.neu → pr.neg + pr.neu + pr.pos ≤ 1 →
      ¬(pr.pos > 0.5 ∧ pr.neg > 0.5)) ∧
    (0 : ℝ) < (1 + (p : ℝ)) / (1 + (n : ℝ)) ∧
    (sentiment_score p n = 0 ↔ p = n) ∧
    (0 < sentiment_score p n ↔ n < p) := by
  have hp : (0 : ℝ) < 1 + (p : ℝ) := by positivity
  have hn : (0 : ℝ) < 1 + (n : ℝ) := by positivity
  have hx : (0 : ℝ) < (1 + (p : ℝ)) / (1 + (n : ℝ)) := div_pos hp hn
  refine ⟨List.countP_eq_length_filter _ _, List.countP_eq_length_filter _ _, ?_, hx, ?_, ?_⟩
  · rintro pr hneu hsum ⟨hpos, hneg⟩
    linarith
  · rw [sentiment_score, Real.log_eq_zero]
    constructor
    · rintro (h | h | h)
      · exact absurd h (ne_of_gt hx)
      · have := (div_eq_one_iff_eq (ne_of_gt hn)).1 h
        exact_mod_cast add_left_cancel this
      · exact absurd h (by linarith)
    · intro h
      subst h
      exact Or.inr (Or.inl (div_self (ne_of_gt hp)))
  · rw [sentiment_score, Real.log_pos_iff hx, one_lt_div hn, add_lt_add_iff_left]
    exact Nat.cast_lt

/-! ## Claim C1: the decision rule of `act` -/

/-- C1: `score > 0.15` gives BUY, `score < -0.15` gives SELL, otherwise HOLD;
on HOLD the allocation is forced to zero regardless of `tanh(score)`, while
on BUY/SELL `investmentAmount = budget * tanh(score)` and
`investmentPercent = tanh(score) * 100`; `confidence` is
`min(|tanh(score)|, 1.0)` for BUY/SELL and exactly `0.5` for HOLD. -/
theorem C1_decision_rule (fmt : ℝ → String) (ticker : String) (score : ℝ)
    (p n : ℕ) (raw : List RawItem) (budget : ℝ) (dp : ℕ) :
    (score > 0.15 →
      (act fmt ticker score p n raw budget dp).action = .BUY ∧
      (act fmt ticker score p n raw budget dp).confidence = min |Real.tanh score| 1 ∧
      (act fmt ticker score p n raw budget dp).investment_amount = budget * Real.tanh score ∧
      (act fmt ticker score p n raw budget dp).investment_percent = Real.tanh score * 100) ∧
    (score < -0.15 →
      (act fmt ticker score p n raw budget dp).action = .SELL ∧
      (act fmt ticker score p n raw budget dp).confidence = min |Real.tanh score| 1 ∧
      (act fmt ticker score p n raw budget dp).investment_amount = budget * Real.tanh score ∧
      (act fmt ticker score p n raw budget dp).investment_percent = Real.tanh score * 100) ∧
    (-0.15 ≤ score → score ≤ 0.15 →
      (act fmt ticker score p n raw budget dp).action = .HOLD ∧
      (act fmt ticker score p n raw budget dp).confidence = 0.5 ∧
      (act fmt ticker score p n raw budget dp).investment_amount = 0 ∧
      (act fmt ticker score p n raw budget dp).investment_percent = 0) := by
  refine ⟨?_, ?_, ?_⟩
  · intro h
    rw [act, if_pos h]
    norm_num
  · intro h
    have h1 : ¬ score > 0.15 := by norm_num; linarith
    rw [act, if_neg h1, if_pos h]
    norm_num
  · intro hlo hhi
    have h1 : ¬ score > 0.15 := by norm_num; linarith
    have h2 : ¬ score < -0.15 := by norm_num; linarith
    rw [act, if_neg h1, if_neg h2]
    norm_num

/-! ## Claim C5: empty-corpus short-circuit -/

/-- C5: when the corpus-building stage returns an empty list, `execute`
returns a recommendation with action ERROR whose reasoning text states that
no data was found, and neither the predict stage (sentiment scorer) nor the
act stage (decision engine) is invoked. -/
theorem C5_empty_corpus (fmt : ℝ → String) (ticker : String)
    (r t n : List RawItem) (scorer : Option (List ClassProbs)) (budget : ℝ)
    (history : List Recommendation)
    (h : scrape_all r t n = []) :
    (execute fmt ticker r t n scorer budget history).recommendation.action = .ERROR ∧
    "no data found".toList <+:
      ((execute fmt ticker r t n scorer budget history).recommendation.reasoning.toList.map
        toLowerPy) ∧
    (execute fmt ticker r t n scorer budget history).predict_invoked = false ∧
    (execute fmt ticker r t n scorer budget history).act_invoked = false := by
  rw [execute.eq_def]
  simp only [h, List.length_nil, if_true]
  refine ⟨rfl, ?_, trivial, trivial⟩
  show "no data found".toList <+:
    List.map toLowerPy "No data found for this stock".toList
  decide

/-- C5 witness: the empty-corpus run at a concrete input. -/
theorem C5_empty_corpus_witness :
    (execute (fun _ => "") "aapl" [] [] [] none 100 []).recommendation.action = .ERROR ∧
    "no data found".toList <+:
      ((execute (fun _ => "") "aapl" [] [] [] none 100 []).recommendation.reasoning.toList.map
        toLowerPy) ∧
    (execute (fun _ => "") "aapl" [] [] [] none 100 []).predict_invoked = false ∧
    (execute (fun _ => "") "aapl" [] [] [] none 100 []).act_invoked = false :=
  C5_empty_corpus (fun _ => "") "aapl" [] [] [] none 100 [] rfl

/-- Helper: a prefix of `a` is a prefix of `a ++ b` (on string character
lists). -/
theorem prefix_through_append (p : List Char) (a b : String)
    (hp : p <+: a.toList) : p <+: (a ++ b).toList := by
  rw [show (a ++ b).toList = a.toList ++ b.toList from String.data_append a b]
  exact hp.trans (List.prefix_append _ _)

/-! ## Claim C6: scorer failure fails closed -/

/-- C6: when the external classifier call fails (the `except` branch of
`predict`), the run does not abort: the score and both counts are zero, the
decision is HOLD with confidence `0.5` and zero allocation, the run still
appends a well-formed recommendation, and its reasoning text is the neutral
template (it opens with "Neutral sentiment", the low-confidence wording). -/
theorem C6_scorer_failure (fmt : ℝ → String) (ticker : String)
    (r t n : List RawItem) (budget : ℝ) (history : List Recommendation)
    (h : scrape_all r t n ≠ []) :
    (execute fmt ticker r t n none budget history).recommendation.sentiment_score = 0 ∧
    (execute fmt ticker r t n none budget history).recommendation.positive_count = 0 ∧
    (execute fmt ticker r t n none budget history).recommendation.negative_count = 0 ∧
    (execute fmt ticker r t n none budget history).recommendation.action = .HOLD ∧
    (execute fmt ticker r t n none budget history).recommendation.confidence = 0.5 ∧
    (execute fmt ticker r t n none budget history).recommendation.investment_amount = 0 ∧
    (execute fmt ticker r t n none budget history).recommendation.investment_percent = 0 ∧
    (execute fmt ticker r t n none budget history).predict_invoked = true ∧
    (execute fmt ticker r t n none budget history).act_invoked = true ∧
    (execute fmt ticker r t n none budget history).history =
      history ++ [(execute fmt ticker r t n none budget history).recommendation] ∧
    "Neutral sentiment".toList <+:
      (execute fmt ticker r t n none budget history).recommendation.reasoning.toList := by
  have hlen : ¬ ((scrape_all r t n).length = 0) := by
    simpa [List.length_eq_zero] using h
  have c1 : ¬ ((0.0 : ℝ) > 0.15) := by norm_num
  have c2 : ¬ ((0.0 : ℝ) < -0.15) := by norm_num
  rw [execute.eq_def, if_neg hlen]
  simp only [act, if_neg c1, if_neg c2]
  refine ⟨?_, ?_, ?_, ?_, ?_, ?_, ?_, ?_, ?_, ?_, ?_⟩
  any_goals trivial
  any_goals norm_num
  rw [holdReasoning]
  repeat apply prefix_through_append
  decide

/-- C6 witness: a concrete one-item corpus with a failing scorer. -/
theorem C6_scorer_failure_witness :
    (execute (fun _ => "") "aapl" [RawItem.mk "hello world".toList "reddit"] [] []
      none 100 []).recommendation.action = AgentAction.HOLD :=
  (C6_scorer_failure (fun _ => "") "aapl" [RawItem.mk "hello world".toList "reddit"] [] []
    100 [] (by decide)).2.2.2.1

/-! ## Claim C9: budget handling -/

/-- C9 counterexample: a run with the non-positive budget `-1` and a BUY
signal is NOT clamped to a zero allocation: its `investment_amount` is
`-1 * tanh 1`, which is nonzero. -/
theorem C9_budget_counterexample :
    ((-1 : ℝ) ≤ 0) ∧
    (act (fun _ => "") "TSLA" 1 30 5 [] (-1) 35).action = AgentAction.BUY ∧
    (act (fun _ => "") "TSLA" 1 30 5 [] (-1) 35).investment_amount ≠ 0 := by
  have hb : (1 : ℝ) > 0.15 := by norm_num
  have htanh : (0 : ℝ) < Real.tanh 1 := by
    rw [Real.tanh_eq_sinh_div_cosh]
    exact div_pos (Real.sinh_pos_iff.2 one_pos) (Real.cosh_pos 1)
  refine ⟨by norm_num, ?_, ?_⟩
  · rw [act, if_pos hb]
  · rw [act, if_pos hb]
    show (-1 : ℝ) * Real.tanh 1 ≠ 0
    exact ne_of_lt (mul_neg_of_neg_of_pos (by norm_num) htanh)

/-- C9 (amended): the pipeline never raises on any real budget — `act` is
total and always yields BUY, SELL or HOLD, never a hard rejection; a budget
of exactly zero yields a zero investment amount, and the HOLD branch forces
zero allocation, but outside the HOLD branch the allocation stays
`budget * tanh(score)` — a negative budget is NOT clamped to zero; when the
budget argument is unspecified, `execute` runs with the fixed default
10000. -/
theorem C9_amended (fmt : ℝ → String) (ticker : String) (score : ℝ) (p n : ℕ)
    (raw : List RawItem) (budget : ℝ) (dp : ℕ)
    (r t nl : List RawItem) (scorer : Option (List ClassProbs))
    (history : List Recommendation) :
    ((act fmt ticker score p n raw budget dp).investment_amount = budget * Real.tanh score ∨
      ((act fmt ticker score p n raw budget dp).action = .HOLD ∧
        (act fmt ticker score p n raw budget dp).investment_amount = 0 ∧
        (act fmt ticker score p n raw budget dp).investment_percent = 0)) ∧
    (budget = 0 → (act fmt ticker score p n raw budget dp).investment_amount = 0) ∧
    ((act fmt ticker score p n raw budget dp).action = .HOLD →
      (act fmt ticker score p n raw budget dp).investment_amount = 0 ∧
      (act fmt ticker score p n raw budget dp).investment_percent = 0) ∧
    ((act fmt ticker score p n raw budget dp).action = .BUY ∨
      (act fmt ticker score p n raw budget dp).action = .SELL ∨
      (act fmt ticker score p n raw budget dp).action = .HOLD) ∧
    default_budget = 10000 ∧
    execute_default fmt ticker r t nl scorer history =
      execute fmt ticker r t nl scorer 10000 history := by
  refine ⟨?_, ?_, ?_, ?_, by norm_num [default_budget], ?_⟩
  · by_cases h1 : score > 0.15
    · rw [act, if_pos h1]
      exact Or.inl rfl
    · by_cases h2 : score < -0.15
      · rw [act, if_neg h1, if_pos h2]
        exact Or.inl rfl
      · rw [act, if_neg h1, if_neg h2]
        exact Or.inr ⟨rfl, by norm_num, by norm_num⟩
  · intro hb
    subst hb
    by_cases h1 : score > 0.15
    · rw [act, if_pos h1]
      show (0 : ℝ) * Real.tanh score = 0
      rw [zero_mul]
    · by_cases h2 : score < -0.15
      · rw [act, if_neg h1, if_pos h2]
        show (0 : ℝ) * Real.tanh score = 0
        rw [zero_mul]
      · rw [act, if_neg h1, if_neg h2]
        norm_num
  · by_cases h1 : score > 0.15
    · rw [act, if_pos h1]
      intro habs
      simp at habs
    · by_cases h2 : score < -0.15
      · rw [act, if_neg h1, if_pos h2]
        intro habs
        simp at habs
      · rw [act, if_neg h1, if_neg h2]
        intro _
        exact ⟨by norm_num, by norm_num⟩
  · by_cases h1 : score > 0.15
    · rw [act, if_pos h1]
      exact Or.inl rfl
    · by_cases h2 : score < -0.15
      · rw [act, if_neg h1, if_pos h2]
        exact Or.inr (Or.inl rfl)
      · rw [act, if_neg h1, if_neg h2]
        exact Or.inr (Or.inr rfl)
  · rw [execute_default, default_budget, show (10000.0 : ℝ) = 10000 by norm_num]

/-- C9 witness: the zero-budget clamping at a concrete HOLD-free input. -/
theorem C9_amended_witness :
    (act (fun _ => "") "TSLA" 1 30 5 [] 0 35).investment_amount = 0 :=
  (C9_amended (fun _ => "") "TSLA" 1 30 5 [] 0 35 [] [] [] none []).2.1 rfl

/-! ## Claim C10: run history -/

/-- C10: an empty-corpus run (action ERROR) leaves the history unchanged —
the ERROR recommendation is never appended — while every completed run
appends exactly its one recommendation; the prior history is always a
prefix of the new history (nothing is removed or modified), and
`get_history` returns the history as is. -/
theorem C10_history (fmt : ℝ → String) (ticker : String)
    (r t n : List RawItem) (scorer : Option (List ClassProbs)) (budget : ℝ)
    (history : List Recommendation) :
    (scrape_all r t n = [] →
      (execute fmt ticker r t n scorer budget history).history = history) ∧
    (scrape_all r t n ≠ [] →
      (execute fmt ticker r t n scorer budget history).history =
        history ++ [(execute fmt ticker r t n scorer budget history).recommendation]) ∧
    history <+: (execute fmt ticker r t n scorer budget history).history ∧
    get_history (execute fmt ticker r t n scorer budget history).history =
      (execute fmt ticker r t n scorer budget history).history := by
  by_cases h : scrape_all r t n = []
  · have hlen : (scrape_all r t n).length = 0 := by rw [h]; rfl
    rw [execute.eq_def, if_pos hlen]
    exact ⟨fun _ => rfl, fun habs => absurd h habs, List.prefix_rfl, rfl⟩
  · have hlen : ¬ ((scrape_all r t n).length = 0) := by
      simpa [List.length_eq_zero] using h
    rw [execute.eq_def, if_neg hlen]
    exact ⟨fun habs => absurd habs h, fun _ => rfl, List.prefix_append _ _, rfl⟩

/-! ## Claim C3: idempotence of the cleaner

Helper lemmas about the scanners and the whitespace normalizer. -/

/-- A tag scanner leaves any string without the tag character unchanged. -/
theorem tagGo_eq_self (tag : Char) (s : List Char)
    (h : ∀ c ∈ s, c ≠ tag) : tagGo tag s false = s := by
  induction s with
  | nil => rfl
  | cons c rest ih =>
    have hbeq : (c == tag) = false :=
      beq_eq_false_iff_ne.2 (h c (List.mem_cons_self _ _))
    simp only [tagGo, Bool.false_and, Bool.false_eq_true, if_false, hbeq,
      List.cons.injEq, true_and]
    exact ih (fun c hc => h c (List.mem_cons_of_mem _ hc))

/-- Unfolding `pyWords` past a leading whitespace character. -/
theorem pyWords_cons_space (c : Char) (rest : List Char)
    (hc : isPySpace c = true) : pyWords (c :: rest) = pyWords rest := by
  rw [pyWords.eq_def]
  simp [hc]

/-- Unfolding `pyWords` on a single non-whitespace character. -/
theorem pyWords_one_nonspace (c : Char) (hc : isPySpace c = false) :
    pyWords [c] = [[c]] := by
  rw [pyWords.eq_def]
  simp [hc]

/-- Unfolding `pyWords` at a word boundary. -/
theorem pyWords_cons_cons_space (c d : Char) (t : List Char)
    (hc : isPySpace c = false) (hd : isPySpace d = true) :
    pyWords (c :: d :: t) = [c] :: pyWords (d :: t) := by
  rw [pyWords.eq_def]
  simp [hc, hd]

/-- `pyWords` of a string that opens with a non-whitespace character is
non-empty. -/
theorem pyWords_ne_nil (d : Char) (t : List Char) (hd : isPySpace d = false) :
    pyWords (d :: t) ≠ [] := by
  rw [pyWords.eq_def]
  cases t with
  | nil => simp [hd]
  | cons e t' =>
    simp only [hd]
    by_cases he : isPySpace e
    · simp [he]
    · simp only [he]
      cases hpw : pyWords (e :: t') <;> simp [hd, hpw]

/-- Unfolding `pyWords` inside a word. -/
theorem pyWords_cons_cons_nonspace (c d : Char) (t : List Char)
    (hc : isPySpace c = false) (hd : isPySpace d = false)
    (w : List Char) (ws : List (List Char))
    (hpw : pyWords (d :: t) = w :: ws) :
    pyWords (c :: d :: t) = (c :: w) :: ws := by
  rw [pyWords.eq_def]
  simp [hc, hd, hpw]

/-- Soundness of `pyWords`: every produced word is non-empty and consists of
non-whitespace characters of the input. -/
theorem pyWords_mem : ∀ (s : List Char), ∀ w ∈ pyWords s,
    w ≠ [] ∧ ∀ c ∈ w, c ∈ s ∧ isPySpace c = false := by
  intro s
  induction s with
  | nil => intro w hw; simp [pyWords] at hw
  | cons c rest ih =>
    intro w hw
    by_cases hc : isPySpace c
    · rw [pyWords_cons_space c rest hc] at hw
      obtain ⟨h1, h2⟩ := ih w hw
      exact ⟨h1, fun d hd => ⟨List.mem_cons_of_mem _ (h2 d hd).1, (h2 d hd).2⟩⟩
    · have hc' : isPySpace c = false := by simpa using hc
      cases rest with
      | nil =>
        rw [pyWords_one_nonspace c hc'] at hw
        rw [List.mem_singleton] at hw
        subst hw
        refine ⟨by simp, ?_⟩
        intro d hd
        rw [List.mem_singleton] at hd
        subst hd
        exact ⟨List.mem_cons_self _ _, hc'⟩
      | cons d t =>
        by_cases hd : isPySpace d
        · rw [pyWords_cons_cons_space c d t hc' hd] at hw
          rcases List.mem_cons.1 hw with h1 | h1
          · subst h1
            refine ⟨by simp, ?_⟩
            intro e he
            rw [List.mem_singleton] at he
            subst he
            exact ⟨List.mem_cons_self _ _, hc'⟩
          · obtain ⟨hne, hmem⟩ := ih w h1
            exact ⟨hne, fun e he =>
              ⟨List.mem_cons_of_mem _ (hmem e he).1, (hmem e he).2⟩⟩
        · have hd' : isPySpace d = false := by simpa using hd
          cases hpw : pyWords (d :: t) with
          | nil => exact absurd hpw (pyWords_ne_nil d t hd')
          | cons w0 ws0 =>
            rw [pyWords_cons_cons_nonspace c d t hc' hd' w0 ws0 hpw] at hw
            rcases List.mem_cons.1 hw with h1 | h1
            · subst h1
              have h0 := ih w0 (by rw [hpw]; exact List.mem_cons_self _ _)
              refine ⟨by simp, ?_⟩
              intro e he
              rcases List.mem_cons.1 he with rfl | he'
              · exact ⟨List.mem_cons_self _ _, hc'⟩
              · have := h0.2 e he'
                exact ⟨List.mem_cons_of_mem _ this.1, this.2⟩
            · have := ih w (by rw [hpw]; exact List.mem_cons_of_mem _ h1)
              exact ⟨this.1, fun e he =>
                ⟨List.mem_cons_of_mem _ (this.2 e he).1, (this.2 e he).2⟩⟩

/-- `pyWords` of a single non-empty whitespace-free word. -/
theorem pyWords_single (w : List Char) (hne : w ≠ [])
    (hsp : ∀ c ∈ w, isPySpace c = false) : pyWords w = [w] := by
  induction w with
  | nil => exact absurd rfl hne
  | cons c t ih =>
    have hc : isPySpace c = false := hsp c (List.mem_cons_self _ _)
    cases t with
    | nil => exact pyWords_one_nonspace c hc
    | cons d t' =>
      have hd : isPySpace d = false :=
        hsp d (List.mem_cons_of_mem _ (List.mem_cons_self _ _))
      have ht : pyWords (d :: t') = [d :: t'] :=
        ih (by simp) (fun e he => hsp e (List.mem_cons_of_mem _ he))
      exact pyWords_cons_cons_nonspace c d t' hc hd _ _ ht

/-- `pyWords` splits a whitespace-free word off at a following blank. -/
theorem pyWords_word_append (w s : List Char) (hne : w ≠ [])
    (hsp : ∀ c ∈ w, isPySpace c = false) :
    pyWords (w ++ ' ' :: s) = w :: pyWords s := by
  induction w with
  | nil => exact absurd rfl hne
  | cons c t ih =>
    have hc : isPySpace c = false := hsp c (List.mem_cons_self _ _)
    cases t with
    | nil =>
      have h1 : pyWords (' ' :: s) = pyWords s :=
        pyWords_cons_space ' ' s (by decide)
      calc pyWords ([c] ++ ' ' :: s) = [c] :: pyWords (' ' :: s) :=
            pyWords_cons_cons_space c ' ' s hc (by decide)
        _ = [c] :: pyWords s := by rw [h1]
    | cons d t' =>
      have hd : isPySpace d = false :=
        hsp d (List.mem_cons_of_mem _ (List.mem_cons_self _ _))
      have ht : pyWords ((d :: t') ++ ' ' :: s) = (d :: t') :: pyWords s :=
        ih (by simp) (fun e he => hsp e (List.mem_cons_of_mem _ he))
      exact pyWords_cons_cons_nonspace c d (t' ++ ' ' :: s) hc hd _ _ ht

/-- Re-splitting a join of non-empty whitespace-free words recovers exactly
the words. -/
theorem pyWords_joinWords : ∀ (ws : List (List Char)),
    (∀ w ∈ ws, w ≠ [] ∧ ∀ c ∈ w, isPySpace c = false) →
    pyWords (joinWords ws) = ws := by
  intro ws
  induction ws with
  | nil => intro _; rfl
  | cons w ws' ih =>
    intro h
    cases ws' with
    | nil =>
      have hw := h w (List.mem_cons_self _ _)
      exact pyWords_single w hw.1 hw.2
    | cons w2 ws'' =>
      have hw := h w (List.mem_cons_self _ _)
      have hjoin : joinWords (w :: w2 :: ws'') = w ++ ' ' :: joinWords (w2 :: ws'') := rfl
      rw [hjoin, pyWords_word_append w _ hw.1 hw.2,
        ih (fun v hv => h v (List.mem_cons_of_mem _ hv))]

/-- Mapping a blank-preserving function commutes with `joinWords`. -/
theorem joinWords_map (f : Char → Char) (hf : f ' ' = ' ') :
    ∀ ws : List (List Char),
    joinWords (ws.map (List.map f)) = (joinWords ws).map f := by
  intro ws
  induction ws with
  | nil => rfl
  | cons w ws' ih =>
    cases ws' with
    | nil => rfl
    | cons w2 ws'' =>
      show (List.map f w) ++ ' ' :: joinWords ((w2 :: ws'').map (List.map f)) =
        List.map f (w ++ ' ' :: joinWords (w2 :: ws''))
      simp only [List.map_cons] at ih
      simp only [List.map_append, List.map_cons, hf]
      exact congrArg (fun l => List.map f w ++ ' ' :: l) ih

/-- Every character of a join is either a blank or a character of one of the
words. -/
theorem mem_joinWords : ∀ (ws : List (List Char)) (c : Char),
    c ∈ joinWords ws → c = ' ' ∨ ∃ w ∈ ws, c ∈ w := by
  intro ws
  induction ws with
  | nil => intro c hc; simp [joinWords] at hc
  | cons w ws' ih =>
    intro c hc
    cases ws' with
    | nil => exact Or.inr ⟨w, List.mem_cons_self _ _, hc⟩
    | cons w2 ws'' =>
      rcases List.mem_append.1 hc with h1 | h1
      · exact Or.inr ⟨w, List.mem_cons_self _ _, h1⟩
      · rcases List.mem_cons.1 h1 with rfl | h2
        · exact Or.inl rfl
        · rcases ih c h2 with h3 | ⟨v, hv, hcv⟩
          · exact Or.inl h3
          · exact Or.inr ⟨v, List.mem_cons_of_mem _ hv, hcv⟩

/-- A kept, non-whitespace character is an ASCII letter, a digit or one of
`.!?`. -/
theorem keepChar_nonspace_mem (c : Char) (hk : keepChar c = true)
    (hs : isPySpace c = false) :
    c ∈ asciiLetters ++ asciiDigits ++ ['.', '!', '?'] := by
  simp [keepChar, hs] at hk
  simp [List.mem_append]
  tauto

/-- Character-level facts about the kept alphabet, checked by evaluation:
lowercasing a kept non-whitespace character yields a non-whitespace,
non-`@`, non-`#`, non-emoji, kept character, and lowercasing is idempotent
on it. -/
theorem keep_char_facts : ∀ c ∈ asciiLetters ++ asciiDigits ++ ['.', '!', '?'],
    isPySpace (toLowerPy c) = false ∧ toLowerPy (toLowerPy c) = toLowerPy c ∧
    toLowerPy c ≠ '@' ∧ toLowerPy c ≠ '#' ∧ isEmojiChar (toLowerPy c) = false ∧
    keepChar (toLowerPy c) = true := by decide

/-- C3 counterexample: cleaning is NOT idempotent in general.  Lowercasing
runs last, while URL stripping is case sensitive and runs first, so a
cleaned text can contain a fresh URL-pattern match: `clean("HTTPX")` is
`"httpx"`, and re-cleaning strips it entirely to `""`. -/
theorem C3_counterexample :
    clean_single_text "HTTPX".toList = "httpx".toList ∧
    clean_single_text (clean_single_text "HTTPX".toList) = [] ∧
    clean_single_text (clean_single_text "HTTPX".toList) ≠
      clean_single_text "HTTPX".toList := by
  refine ⟨?_, ?_, ?_⟩ <;> decide

/-- C3 (amended): the text cleaner is idempotent on every input whose
cleaned form contains no match of the (case-sensitive) URL pattern, i.e.
whenever `remove_urls` leaves `clean(x)` unchanged: all later steps fix the
cleaned alphabet, single blanks and lowercase letters.  Unrestricted
idempotence fails only through the URL step (see the counterexample). -/
theorem C3_amended (x : List Char)
    (h : remove_urls (clean_single_text x) = clean_single_text x) :
    clean_single_text (clean_single_text x) = clean_single_text x := by
  obtain ⟨z, hzdef⟩ : ∃ z, remove_special_chars (remove_emojis (remove_hashtags
      (remove_mentions (remove_urls x)))) = z := ⟨_, rfl⟩
  obtain ⟨ws, hwsdef⟩ : ∃ ws, pyWords z = ws := ⟨_, rfl⟩
  have hy : clean_single_text x = (joinWords ws).map toLowerPy := by
    rw [← hwsdef, ← hzdef]
    rfl
  have hwords : ∀ w ∈ ws, w ≠ [] ∧ ∀ c ∈ w, c ∈ z ∧ isPySpace c = false := by
    rw [← hwsdef]
    exact pyWords_mem z
  have hkeep : ∀ c ∈ z, keepChar c = true := by
    intro c hc
    rw [← hzdef] at hc
    exact (List.mem_filter.1 hc).2
  have hwmem : ∀ w ∈ ws, ∀ c ∈ w,
      c ∈ asciiLetters ++ asciiDigits ++ ['.', '!', '?'] := by
    intro w hw c hc
    obtain ⟨-, h2⟩ := hwords w hw
    obtain ⟨hcz, hcs⟩ := h2 c hc
    exact keepChar_nonspace_mem c (hkeep c hcz) hcs
  have hychar : ∀ c ∈ clean_single_text x,
      c ≠ '@' ∧ c ≠ '#' ∧ isEmojiChar c = false ∧ keepChar c = true := by
    intro c hc
    rw [hy] at hc
    rcases List.mem_map.1 hc with ⟨c0, hc0, rfl⟩
    rcases mem_joinWords ws c0 hc0 with rfl | ⟨w, hw, hcw⟩
    · exact ⟨by decide, by decide, by decide, by decide⟩
    · have hk := keep_char_facts c0 (hwmem w hw c0 hcw)
      exact ⟨hk.2.2.1, hk.2.2.2.1, hk.2.2.2.2.1, hk.2.2.2.2.2⟩
  have h2 : remove_mentions (clean_single_text x) = clean_single_text x :=
    tagGo_eq_self '@' _ (fun c hc => (hychar c hc).1)
  have h3 : remove_hashtags (clean_single_text x) = clean_single_text x :=
    tagGo_eq_self '#' _ (fun c hc => (hychar c hc).2.1)
  have h4 : remove_emojis (clean_single_text x) = clean_single_text x := by
    apply List.filter_eq_self.2
    intro c hc
    simp [(hychar c hc).2.2.1]
  have h5 : remove_special_chars (clean_single_text x) = clean_single_text x := by
    apply List.filter_eq_self.2
    intro c hc
    exact (hychar c hc).2.2.2
  have h6 : normalize_whitespace (clean_single_text x) = clean_single_text x := by
    rw [hy, ← joinWords_map toLowerPy (by decide) ws]
    rw [normalize_whitespace, pyWords_joinWords]
    intro w hw
    rcases List.mem_map.1 hw with ⟨w0, hw0, rfl⟩
    refine ⟨by simpa using (hwords w0 hw0).1, ?_⟩
    intro c hc
    rcases List.mem_map.1 hc with ⟨c0, hc0, rfl⟩
    exact (keep_char_facts c0 (hwmem w0 hw0 c0 hc0)).1
  have h7 : lowercase (clean_single_text x) = clean_single_text x := by
    rw [hy, lowercase, List.map_map]
    apply List.map_congr_left
    intro c0 hc0
    show toLowerPy (toLowerPy c0) = toLowerPy c0
    rcases mem_joinWords ws c0 hc0 with rfl | ⟨w, hw, hcw⟩
    · decide
    · exact (keep_char_facts c0 (hwmem w hw c0 hcw)).2.1
  show lowercase (normalize_whitespace (remove_special_chars (remove_emojis
    (remove_hashtags (remove_mentions (remove_urls (clean_single_text x))))))) =
    clean_single_text x
  rw [h, h2, h3, h4, h5, h6, h7]

/-- C3 witness: re-cleaning a concrete URL-free text is a no-op. -/
theorem C3_amended_witness :
    clean_single_text (clean_single_text "Hello World! Great day.".toList) =
      clean_single_text "Hello World! Great day.".toList :=
  C3_amended "Hello World! Great day.".toList (by decide)
